import Mathlib

set_option autoImplicit false

namespace GraphQLRepo

/-! Shallow embedding of the batched data-fetching layer of the GraphQL
    route plugin (`src/src/routes/graphql/index.ts`) together with the
    earlier, loader-free revision of the same plugin (`src/unnamed/part_000`),
    and of the custom input scalars. -/

/-! Domain data model, from the interfaces at `index.ts` lines 23–64.
    Ids are UUID strings at runtime (the `authorId: number` annotation in
    `IPost` is a stale annotation: the runtime value compared with `===`
    against string keys is the UUID string). -/

structure User where
  id : String
  name : String
  balance : Int
  deriving DecidableEq, Repr

structure Post where
  id : String
  title : String
  content : String
  authorId : String
  deriving DecidableEq, Repr

structure Profile where
  id : String
  isMale : Bool
  yearOfBirth : Int
  memberTypeId : String
  userId : String
  deriving DecidableEq, Repr

structure MemberType where
  id : String
  discount : Int
  postsLimitPerMonth : Int
  deriving DecidableEq, Repr

/-- One row of the `subscribersOnAuthors` join table (`ISubscription`). -/
structure SubRow where
  subscriberId : String
  authorId : String
  deriving DecidableEq, Repr

/-- The relational data store behind `prisma`. -/
structure Store where
  users : List User
  posts : List Post
  profiles : List Profile
  memberTypes : List MemberType
  subRows : List SubRow
  deriving DecidableEq, Repr

/-- A user row as returned by
    `prisma.user.findMany({ include: { subscribedToUser: true, userSubscribedTo: true } })`:
    the user plus its included join-table rows.  Per the prisma schema,
    `subscribedToUser` are the rows where this user is the author and
    `userSubscribedTo` the rows where this user is the subscriber. -/
structure UserWithSubs where
  user : User
  subscribedToUser : List SubRow
  userSubscribedTo : List SubRow
  deriving DecidableEq, Repr

/-! A plain JavaScript object used as a dictionary, as built by the
    `keys.reduce((accumulator, key) => { accumulator[key] = ...; return accumulator }, {})`
    pattern in every bulk-fetch function.  `objGet` returns `none` for an
    absent property (JS `undefined`). -/

def objSet {α : Type} (m : List (String × α)) (k : String) (v : α) : List (String × α) :=
  match m with
  | [] => [(k, v)]
  | (k₂, v₂) :: rest => if k₂ = k then (k, v) :: rest else (k₂, v₂) :: objSet rest k v

def objGet {α : Type} (m : List (String × α)) (k : String) : Option α :=
  match m with
  | [] => none
  | (k₂, v₂) :: rest => if k₂ = k then some v₂ else objGet rest k

/-- The `keys.reduce(...)` accumulator: assign `f key` under each key in order. -/
def buildCache {α : Type} (keys : List String) (f : String → α) : List (String × α) :=
  keys.foldl (fun m k => objSet m k (f k)) []

/-! Data-store access.  Each bulk-fetch function is a small program over the
    store; representing it as a free monad over the prisma queries it can
    issue lets one count the queries a batch performs. -/

inductive DB (α : Type) : Type where
  | pure (a : α)
  | queryUsers (k : List User → DB α)
  | queryPosts (k : List Post → DB α)
  | queryProfiles (k : List Profile → DB α)
  | queryMemberTypes (k : List MemberType → DB α)
  | queryUsersWithSubs (k : List UserWithSubs → DB α)

/-- Prisma's `include` semantics for
    `user.findMany({ include: { subscribedToUser: true, userSubscribedTo: true } })`. -/
def includeSubs (s : Store) : List UserWithSubs :=
  s.users.map fun u =>
    { user := u
      subscribedToUser := s.subRows.filter fun r => r.authorId == u.id
      userSubscribedTo := s.subRows.filter fun r => r.subscriberId == u.id }

def DB.run {α : Type} (s : Store) : DB α → α
  | .pure a => a
  | .queryUsers k => (k s.users).run s
  | .queryPosts k => (k s.posts).run s
  | .queryProfiles k => (k s.profiles).run s
  | .queryMemberTypes k => (k s.memberTypes).run s
  | .queryUsersWithSubs k => (k (includeSubs s)).run s

/-- Number of data-store queries (`findMany` calls) a `DB` program issues. -/
def DB.queryCount {α : Type} (s : Store) : DB α → Nat
  | .pure _ => 0
  | .queryUsers k => 1 + (k s.users).queryCount s
  | .queryPosts k => 1 + (k s.posts).queryCount s
  | .queryProfiles k => 1 + (k s.profiles).queryCount s
  | .queryMemberTypes k => 1 + (k s.memberTypes).queryCount s
  | .queryUsersWithSubs k => 1 + (k (includeSubs s)).queryCount s

/-! The six bulk-fetch functions, `index.ts` lines 93–145.  Each one runs a
    single `findMany`, builds the `reduce` dictionary keyed by the requested
    keys, and maps the keys over it.  For the by-primary-key loaders the
    stored value is `IUser | undefined` (etc.), and a missing property reads
    as `undefined` too, so both collapse through `Option.getD none`; for the
    group loaders the stored value is an array, which is distinguishable from
    an absent property, so the element type stays `Option (List _)`. -/

def userLoaderBatch (keys : List String) : DB (List (Option User)) :=
  .queryUsers fun users =>
    .pure (keys.map fun key =>
      (objGet (buildCache keys fun k => users.find? fun u => u.id == k) key).getD none)

def postLoaderBatch (keys : List String) : DB (List (Option (List Post))) :=
  .queryPosts fun posts =>
    .pure (keys.map fun key =>
      objGet (buildCache keys fun k => posts.filter fun p => p.authorId == k) key)

def profileLoaderBatch (keys : List String) : DB (List (Option Profile)) :=
  .queryProfiles fun profiles =>
    .pure (keys.map fun key =>
      (objGet (buildCache keys fun k => profiles.find? fun p => p.userId == k) key).getD none)

def memberTypeLoaderBatch (keys : List String) : DB (List (Option MemberType)) :=
  .queryMemberTypes fun memberTypes =>
    .pure (keys.map fun key =>
      (objGet (buildCache keys fun k => memberTypes.find? fun m => m.id == k) key).getD none)

def userSubscribedToBatch (keys : List String) : DB (List (Option (List UserWithSubs))) :=
  .queryUsersWithSubs fun rows =>
    .pure (keys.map fun key =>
      objGet (buildCache keys fun k =>
        rows.filter fun row => row.subscribedToUser.any fun sub => sub.subscriberId == k) key)

def subscribedToUserBatch (keys : List String) : DB (List (Option (List UserWithSubs))) :=
  .queryUsersWithSubs fun rows =>
    .pure (keys.map fun key =>
      objGet (buildCache keys fun k =>
        rows.filter fun row => row.userSubscribedTo.any fun sub => sub.authorId == k) key)

/-! The earlier revision's direct per-key resolvers (`src/unnamed/part_000`,
    `UserType` fields, lines 115–158). -/

/-- Prisma `findUnique` over a column carrying a uniqueness constraint:
    the unique matching row, if any. -/
def findUnique {α : Type} (l : List α) (p : α → Bool) : Option α :=
  match l.filter p with
  | [x] => some x
  | _ => none

def old_profileResolver (s : Store) (uid : String) : Option Profile :=
  findUnique s.profiles fun p => p.userId == uid

def old_postsResolver (s : Store) (uid : String) : List Post :=
  s.posts.filter fun p => p.authorId == uid

def old_userSubscribedToResolver (s : Store) (uid : String) : List User :=
  s.users.filter fun u => s.subRows.any fun r => r.authorId == u.id && r.subscriberId == uid

def old_subscribedToUserResolver (s : Store) (uid : String) : List User :=
  s.users.filter fun u => s.subRows.any fun r => r.subscriberId == u.id && r.authorId == uid

/-! Modelled from the spec: the loader mechanism itself (the `dataloader`
    npm dependency wrapped by `new DataLoader(...)`) is not part of the
    repository sources, so its cache-and-coalesce behaviour is modelled from
    spec sections 4.1, 4.2 and 8: `load` returns the existing future on a
    cache hit and otherwise registers a new pending future and records the
    key once in the current batch; firing the batch invokes the bulk-fetch
    function once with the accumulated keys and resolves each future with
    the value at its key's position, or rejects every future of the batch
    with the one error when the bulk fetch fails; an empty batch never
    fires. -/

/-- State of one deferred result (a promise handed back by `load`). -/
inductive FutureState (ε V : Type) : Type where
  | pending
  | resolved (v : V)
  | rejected (e : ε)
  deriving DecidableEq, Repr

/-- One loader instance: its key→future cache, the batch of keys accumulated
    in the current window, the future table and a fresh-id counter. -/
structure LoaderState (K ε V : Type) : Type where
  cache : List (K × Nat)
  batch : List K
  futures : List (Nat × FutureState ε V)
  nextId : Nat
  deriving DecidableEq, Repr

def initLoader {K ε V : Type} : LoaderState K ε V :=
  { cache := [], batch := [], futures := [], nextId := 0 }

/-- The future id the cache associates with a key, if any. -/
def lookupFid {K : Type} [DecidableEq K] (cache : List (K × Nat)) (k : K) : Option Nat :=
  (cache.find? fun e => decide (e.1 = k)).map fun e => e.2

/-- `load(key)`: cache hit returns the memoized future; a miss allocates a
    pending future, caches it and appends the key to the current batch. -/
def load {K ε V : Type} [DecidableEq K] (s : LoaderState K ε V) (k : K) :
    Nat × LoaderState K ε V :=
  match lookupFid s.cache k with
  | some fid => (fid, s)
  | none =>
    (s.nextId,
      { cache := s.cache ++ [(k, s.nextId)]
        batch := s.batch ++ [k]
        futures := s.futures ++ [(s.nextId, .pending)]
        nextId := s.nextId + 1 })

/-- Issue a sequence of `load` calls, collecting the returned future ids. -/
def loadAll {K ε V : Type} [DecidableEq K] (s : LoaderState K ε V) :
    List K → List Nat × LoaderState K ε V
  | [] => ([], s)
  | k :: ks =>
    let p := load s k
    let r := loadAll p.2 ks
    (p.1 :: r.1, r.2)

/-- Distribution of one successful batch result to a future-table entry:
    a future whose id the cache associates with the i-th batched key is
    resolved with the i-th returned value. -/
def resolveEntry {K ε V : Type} [DecidableEq K] (s : LoaderState K ε V) (vs : List V)
    (en : Nat × FutureState ε V) : Nat × FutureState ε V :=
  match (s.batch.zip vs).find? (fun kv => decide (lookupFid s.cache kv.1 = some en.1)) with
  | some kv => (en.1, .resolved kv.2)
  | none => en

/-- Fire the accumulated batch: invoke the bulk-fetch function once with the
    batch keys; on success resolve each batched future with its key's value,
    on failure reject every batched future with the same error.  An empty
    batch is never scheduled. -/
def dispatch {K ε V : Type} [DecidableEq K] (s : LoaderState K ε V)
    (batchFn : List K → Except ε (List V)) : LoaderState K ε V :=
  if s.batch.isEmpty then s
  else
    match batchFn s.batch with
    | .ok vs => { s with batch := [], futures := s.futures.map (resolveEntry s vs) }
    | .error e =>
      { s with
        batch := []
        futures := s.futures.map fun en =>
          if s.batch.any (fun k => decide (lookupFid s.cache k = some en.1)) then
            (en.1, .rejected e)
          else en }

/-- Observe a future's state. -/
def futureOf {K ε V : Type} (s : LoaderState K ε V) (fid : Nat) : Option (FutureState ε V) :=
  (s.futures.find? fun en => decide (en.1 = fid)).map fun en => en.2

/-- Load a single key on a fresh loader and fire the batch: the settled
    state the caller observes. -/
def loadOne {ε V : Type} (batchFn : List String → Except ε (List V)) (k : String) :
    FutureState ε V :=
  let p := load (initLoader (K := String) (ε := ε) (V := V)) k
  (futureOf (dispatch p.2 batchFn) p.1).getD .pending

/-! The request handler (`index.ts` lines 653–680) serves each POST by
    executing the query with `contextValue` built from the `userLoader`, …,
    `subscribedToUserLoader` constants of the surrounding plugin closure
    (lines 93–145) — the same loader instances for every request.  The
    following models serving a `user(id:)` query against a given store
    snapshot with a given loader state, and the two ways of chaining two
    requests: sharing the plugin-level loader (the source) versus building
    a fresh loader per request (the spec). -/

/-- The `userLoader` bulk-fetch as the loader's batch function against a
    store snapshot (its single `findMany` evaluated on that snapshot). -/
def userBatchFn (s : Store) : List String → Except Unit (List (Option User)) :=
  fun ks => .ok ((userLoaderBatch ks).run s)

/-- Serve one `user(id:)` request: the resolver calls `load`, the batch
    fires, and the response reads the settled future.  Returns the observed
    future state and the loader state left behind. -/
def handleRequestUser (ls : LoaderState String Unit (Option User)) (s : Store)
    (uid : String) : FutureState Unit (Option User) × LoaderState String Unit (Option User) :=
  let p := load ls uid
  let ls₂ := dispatch p.2 (userBatchFn s)
  ((futureOf ls₂ p.1).getD .pending, ls₂)

/-- Source behaviour: the second request reuses the loader state the first
    one left in the plugin closure. -/
def serveTwoShared (s₁ s₂ : Store) (uid : String) :
    FutureState Unit (Option User) × FutureState Unit (Option User) :=
  let r₁ := handleRequestUser initLoader s₁ uid
  let r₂ := handleRequestUser r₁.2 s₂ uid
  (r₁.1, r₂.1)

/-- Spec behaviour: each request constructs a fresh loader. -/
def serveTwoFresh (s₁ s₂ : Store) (uid : String) :
    FutureState Unit (Option User) × FutureState Unit (Option User) :=
  ((handleRequestUser initLoader s₁ uid).1, (handleRequestUser initLoader s₂ uid).1)

/-! Custom input scalars (`index.ts` lines 321–489).  A dto field holds an
    arbitrary JavaScript value; numbers are modelled as rationals, which
    carry everything `typeof`, truthiness and `Number.isInteger` distinguish
    here. -/

inductive JSVal : Type where
  | vstr (s : String)
  | vnum (q : ℚ)
  | vbool (b : Bool)
  | vnull
  | vundef
  deriving DecidableEq, Repr

/-- `typeof v === 'string'`. -/
def isStringJS : JSVal → Bool
  | .vstr _ => true
  | _ => false

/-- `typeof v === 'number'`. -/
def isNumberJS : JSVal → Bool
  | .vnum _ => true
  | _ => false

/-- `typeof v === 'boolean'`. -/
def isBooleanJS : JSVal → Bool
  | .vbool _ => true
  | _ => false

/-- JavaScript truthiness of a dto field value. -/
def truthy : JSVal → Bool
  | .vstr s => decide (s ≠ "")
  | .vnum q => decide (q ≠ 0)
  | .vbool b => b
  | .vnull => false
  | .vundef => false

/-- `Number.isInteger v` (false on every non-number). -/
def isIntegerJS : JSVal → Bool
  | .vnum q => decide (q.den = 1)
  | _ => false

/-- `v === 'basic' || v === 'business'` (the `MemberTypeIdEnum` members). -/
def isMemberTypeEnumJS (v : JSVal) : Bool :=
  decide (v = .vstr "basic") || decide (v = .vstr "business")

structure UserDto where
  name : JSVal
  balance : JSVal
  deriving DecidableEq, Repr

structure PostDto where
  title : JSVal
  content : JSVal
  authorId : JSVal
  deriving DecidableEq, Repr

structure ProfileDto where
  userId : JSVal
  memberTypeId : JSVal
  isMale : JSVal
  yearOfBirth : JSVal
  deriving DecidableEq, Repr

/-- `CreateUserInput.serialize` (`index.ts` lines 323–329): `none` models
    the returned `null`. -/
def createUserInput_serialize (value : UserDto) : Option UserDto :=
  bif !isStringJS value.name && !isNumberJS value.balance then none else some value

/-- `CreateUserInput.parseValue` (lines 330–336), same body as `serialize`. -/
def createUserInput_parseValue (value : UserDto) : Option UserDto :=
  bif !isStringJS value.name && !isNumberJS value.balance then none else some value

/-- `ChangeUserInput.serialize` (lines 341–347). -/
def changeUserInput_serialize (value : UserDto) : Option UserDto :=
  bif !isStringJS value.name && !isNumberJS value.balance then none else some value

/-- `ChangeUserInput.parseValue` (lines 348–354). -/
def changeUserInput_parseValue (value : UserDto) : Option UserDto :=
  bif !isStringJS value.name && !isNumberJS value.balance then none else some value

/-- `ChangePostInput.serialize` (lines 379–392): throwing is modelled as
    `Except.error`, the returned `null` as `.ok none`. -/
def changePostInput_serialize (value : PostDto) : Except String (Option PostDto) :=
  if truthy value.authorId then
    .error "Field \"authorId\" is not defined by type \"ChangePostInput\""
  else
    .ok (bif !isStringJS value.title && !isNumberJS value.content then none else some value)

/-- `ChangePostInput.parseValue` (lines 393–406), same body as `serialize`. -/
def changePostInput_parseValue (value : PostDto) : Except String (Option PostDto) :=
  if truthy value.authorId then
    .error "Field \"authorId\" is not defined by type \"ChangePostInput\""
  else
    .ok (bif !isStringJS value.title && !isNumberJS value.content then none else some value)

/-- `ChangeProfileInput.serialize` (lines 447–467). -/
def changeProfileInput_serialize (value : ProfileDto) : Except String (Option ProfileDto) :=
  if truthy value.userId then
    .error "Field \"userId\" is not defined by type \"ChangeProfileInput\""
  else if truthy value.yearOfBirth && !isIntegerJS value.yearOfBirth then
    .error "Int cannot represent non-integer value"
  else
    .ok (bif !isMemberTypeEnumJS value.memberTypeId && !isNumberJS value.yearOfBirth
          && !isBooleanJS value.isMale then none else some value)

/-- `ChangeProfileInput.parseValue` (lines 468–488), same body as `serialize`. -/
def changeProfileInput_parseValue (value : ProfileDto) : Except String (Option ProfileDto) :=
  if truthy value.userId then
    .error "Field \"userId\" is not defined by type \"ChangeProfileInput\""
  else if truthy value.yearOfBirth && !isIntegerJS value.yearOfBirth then
    .error "Int cannot represent non-integer value"
  else
    .ok (bif !isMemberTypeEnumJS value.memberTypeId && !isNumberJS value.yearOfBirth
          && !isBooleanJS value.isMale then none else some value)

/-- Whether a scalar function threw. -/
def throwsError {α : Type} : Except String α → Bool
  | .error _ => true
  | .ok _ => false

/-! Concrete scenario values used by the closed theorems: one user whose
    name changes between two store snapshots, and a small witness store. -/

def userA : User := { id := "u1", name := "Alice", balance := 0 }

def userB : User := { id := "u1", name := "Bob", balance := 0 }

def storeA : Store :=
  { users := [userA], posts := [], profiles := [], memberTypes := [], subRows := [] }

def storeB : Store :=
  { users := [userB], posts := [], profiles := [], memberTypes := [], subRows := [] }

def wUser : User := { id := "w1", name := "W", balance := 5 }

def wSub : SubRow := { subscriberId := "w1", authorId := "w1" }

def wStore : Store :=
  { users := [wUser], posts := [], profiles := [], memberTypes := [], subRows := [wSub] }

/-! Lemmas about the JS-object accumulator. -/

theorem objGet_objSet_self {α : Type} (m : List (String × α)) (k : String) (v : α) :
    objGet (objSet m k v) k = some v := by
  induction m with
  | nil => simp [objSet, objGet]
  | cons e rest ih =>
    obtain ⟨a, b⟩ := e
    by_cases h : a = k
    · simp [objSet, objGet, h]
    · simp [objSet, objGet, h, ih]

theorem objGet_objSet_ne {α : Type} (m : List (String × α)) (k k₂ : String) (v : α)
    (h : k ≠ k₂) : objGet (objSet m k v) k₂ = objGet m k₂ := by
  induction m with
  | nil => simp [objSet, objGet, h]
  | cons e rest ih =>
    obtain ⟨a, b⟩ := e
    by_cases he : a = k
    · simp [objSet, objGet, he, h, Ne.symm h]
    · by_cases he₂ : a = k₂
      · simp [objSet, objGet, he, he₂, Ne.symm h]
      · simp [objSet, objGet, he, he₂, ih]

theorem objGet_foldl {α : Type} (keys : List String) (f : String → α)
    (acc : List (String × α)) (k : String) :
    objGet (keys.foldl (fun m k₂ => objSet m k₂ (f k₂)) acc) k
      = if k ∈ keys then some (f k) else objGet acc k := by
  induction keys generalizing acc with
  | nil => simp
  | cons k₀ rest ih =>
    rw [List.foldl_cons, ih]
    by_cases hk : k ∈ rest
    · simp [hk]
    · by_cases he : k = k₀
      · subst he
        simp [hk, objGet_objSet_self]
      · simp [hk, he, objGet_objSet_ne _ _ _ _ (fun h => he h.symm)]

theorem objGet_buildCache {α : Type} (keys : List String) (f : String → α) (k : String)
    (h : k ∈ keys) : objGet (buildCache keys f) k = some (f k) := by
  rw [buildCache, objGet_foldl]
  simp [h]

/-! The common shape of all six bulk-fetch bodies: mapping the requested
    keys over the `reduce` dictionary re-maps the values to key order. -/

theorem getElem_map_objGet {α : Type} (keys : List String) (i : Nat) (k : String)
    (h : keys[i]? = some k) (f : String → α) :
    (keys.map fun key => objGet (buildCache keys f) key)[i]? = some (some (f k)) := by
  rw [List.getElem?_map, h, Option.map_some']
  rw [objGet_buildCache _ _ _ (List.getElem?_mem h)]

theorem getElem_map_objGetD {α : Type} (keys : List String) (i : Nat) (k : String)
    (h : keys[i]? = some k) (f : String → Option α) :
    (keys.map fun key => (objGet (buildCache keys f) key).getD none)[i]? = some (f k) := by
  rw [List.getElem?_map, h, Option.map_some']
  rw [objGet_buildCache _ _ _ (List.getElem?_mem h)]
  rfl

theorem userLoaderBatch_run (s : Store) (keys : List String) (i : Nat) (k : String)
    (h : keys[i]? = some k) :
    ((userLoaderBatch keys).run s)[i]? = some (s.users.find? fun u => u.id == k) :=
  getElem_map_objGetD keys i k h _

theorem postLoaderBatch_run (s : Store) (keys : List String) (i : Nat) (k : String)
    (h : keys[i]? = some k) :
    ((postLoaderBatch keys).run s)[i]? = some (some (s.posts.filter fun p => p.authorId == k)) :=
  getElem_map_objGet keys i k h _

theorem profileLoaderBatch_run (s : Store) (keys : List String) (i : Nat) (k : String)
    (h : keys[i]? = some k) :
    ((profileLoaderBatch keys).run s)[i]? = some (s.profiles.find? fun p => p.userId == k) :=
  getElem_map_objGetD keys i k h _

theorem memberTypeLoaderBatch_run (s : Store) (keys : List String) (i : Nat) (k : String)
    (h : keys[i]? = some k) :
    ((memberTypeLoaderBatch keys).run s)[i]? = some (s.memberTypes.find? fun m => m.id == k) :=
  getElem_map_objGetD keys i k h _

theorem userSubscribedToBatch_run (s : Store) (keys : List String) (i : Nat) (k : String)
    (h : keys[i]? = some k) :
    ((userSubscribedToBatch keys).run s)[i]?
      = some (some ((includeSubs s).filter fun row =>
          row.subscribedToUser.any fun sub => sub.subscriberId == k)) :=
  getElem_map_objGet keys i k h _

theorem subscribedToUserBatch_run (s : Store) (keys : List String) (i : Nat) (k : String)
    (h : keys[i]? = some k) :
    ((subscribedToUserBatch keys).run s)[i]?
      = some (some ((includeSubs s).filter fun row =>
          row.userSubscribedTo.any fun sub => sub.authorId == k)) :=
  getElem_map_objGet keys i k h _

/-! Lemmas about the loader model. -/

theorem lookupFid_append {K : Type} [DecidableEq K] (c₁ c₂ : List (K × Nat)) (k : K) :
    lookupFid (c₁ ++ c₂) k = (lookupFid c₁ k).or (lookupFid c₂ k) := by
  rw [lookupFid, List.find?_append]
  cases h : c₁.find? fun e => decide (e.1 = k) with
  | none => simp [lookupFid, h]
  | some e => simp [lookupFid, h]

theorem lookupFid_singleton {K : Type} [DecidableEq K] (k₂ k : K) (fid : Nat) :
    lookupFid [(k₂, fid)] k = if k₂ = k then some fid else none := by
  by_cases h : k₂ = k <;> simp [lookupFid, List.find?, h]

theorem find?_append_isSome_left {α : Type} (l₁ l₂ : List α) (p : α → Bool)
    (h : (l₁.find? p).isSome) : ((l₁ ++ l₂).find? p).isSome := by
  obtain ⟨e, he⟩ := Option.isSome_iff_exists.mp h
  simp [List.find?_append, he]

theorem find?_append_isSome_right {α : Type} (l₁ l₂ : List α) (p : α → Bool)
    (h : (l₂.find? p).isSome) : ((l₁ ++ l₂).find? p).isSome := by
  rw [List.find?_append]
  cases h₁ : l₁.find? p <;> simp [h₁, h]

theorem load_lookup_self {K ε V : Type} [DecidableEq K] (s : LoaderState K ε V) (k : K) :
    lookupFid ((load s k).2).cache k = some (load s k).1 := by
  rw [load]
  cases h : lookupFid s.cache k with
  | some fid => simpa using h
  | none => simp [lookupFid_append, lookupFid_singleton, h]

theorem load_lookup_mono {K ε V : Type} [DecidableEq K] (s : LoaderState K ε V) (k₂ k : K)
    (fid : Nat) (h : lookupFid s.cache k = some fid) :
    lookupFid ((load s k₂).2).cache k = some fid := by
  rw [load]
  cases h₂ : lookupFid s.cache k₂ with
  | some f => simpa using h
  | none => simp [lookupFid_append, h]

theorem load_cached_iff {K ε V : Type} [DecidableEq K] (s : LoaderState K ε V) (k₂ k : K) :
    (lookupFid ((load s k₂).2).cache k).isSome
      ↔ (lookupFid s.cache k).isSome ∨ k = k₂ := by
  rw [load]
  cases h₂ : lookupFid s.cache k₂ with
  | some f =>
    simp only []
    constructor
    · exact Or.inl
    · rintro (hs | rfl)
      · exact hs
      · simp [h₂]
  | none =>
    simp only [lookupFid_append, lookupFid_singleton, Option.isSome_or]
    by_cases he : k₂ = k
    · subst he
      simp
    · simp only [he, if_false, Option.isSome_none, Bool.or_false]
      constructor
      · exact Or.inl
      · rintro (hs | rfl)
        · exact hs
        · exact absurd rfl he

/-- Invariant maintained by `load` along any call sequence: the batch has no
    duplicate keys, contains exactly the cached keys, and every cached
    future id has an entry in the future table. -/
structure LoaderInv {K ε V : Type} [DecidableEq K] (s : LoaderState K ε V) : Prop where
  nodupBatch : s.batch.Nodup
  batchIff : ∀ k, k ∈ s.batch ↔ (lookupFid s.cache k).isSome
  fidFuture : ∀ k fid, lookupFid s.cache k = some fid →
    (s.futures.find? fun en => decide (en.1 = fid)).isSome

theorem loaderInv_init {K ε V : Type} [DecidableEq K] :
    LoaderInv (initLoader : LoaderState K ε V) := by
  refine ⟨by simp [initLoader], ?_, ?_⟩ <;> simp [initLoader, lookupFid]

theorem loaderInv_load {K ε V : Type} [DecidableEq K] (s : LoaderState K ε V) (k : K)
    (h : LoaderInv s) : LoaderInv ((load s k).2) := by
  rw [load]
  cases h₂ : lookupFid s.cache k with
  | some fid => simpa using h
  | none =>
    have hk : k ∉ s.batch := fun hm => by
      have := (h.batchIff k).mp hm
      rw [h₂] at this
      simp at this
    refine ⟨?_, ?_, ?_⟩
    · simp [List.nodup_append, h.nodupBatch, hk]
    · intro k₃
      rw [List.mem_append, lookupFid_append, lookupFid_singleton, Option.isSome_or,
        List.mem_singleton]
      by_cases he : k = k₃
      · subst he
        simp
      · simp only [he, if_false, Option.isSome_none, Bool.or_false, h.batchIff k₃]
        constructor
        · rintro (hs | rfl)
          · exact hs
          · exact absurd rfl he
        · exact Or.inl
    · intro k₃ fid h₃
      rw [lookupFid_append, lookupFid_singleton] at h₃
      cases hl : lookupFid s.cache k₃ with
      | some f =>
        rw [hl] at h₃
        replace h₃ : some f = some fid := h₃
        injection h₃ with hf
        subst hf
        exact find?_append_isSome_left _ _ _ (h.fidFuture k₃ f hl)
      | none =>
        rw [hl] at h₃
        replace h₃ : (if k = k₃ then some s.nextId else none) = some fid := h₃
        by_cases he : k = k₃
        · rw [if_pos he] at h₃
          injection h₃ with hfid
          subst hfid
          apply find?_append_isSome_right
          simp
        · rw [if_neg he] at h₃
          cases h₃

theorem loaderInv_loadAll {K ε V : Type} [DecidableEq K] (ks : List K)
    (s : LoaderState K ε V) (h : LoaderInv s) : LoaderInv ((loadAll s ks).2) := by
  induction ks generalizing s with
  | nil => exact h
  | cons k rest ih => exact ih _ (loaderInv_load s k h)

theorem loadAll_lookup_mono {K ε V : Type} [DecidableEq K] (ks : List K)
    (s : LoaderState K ε V) (k : K) (fid : Nat) (h : lookupFid s.cache k = some fid) :
    lookupFid ((loadAll s ks).2).cache k = some fid := by
  induction ks generalizing s with
  | nil => exact h
  | cons k₂ rest ih => exact ih _ (load_lookup_mono s k₂ k fid h)

theorem loadAll_cached_iff {K ε V : Type} [DecidableEq K] (ks : List K)
    (s : LoaderState K ε V) (k : K) :
    (lookupFid ((loadAll s ks).2).cache k).isSome
      ↔ (lookupFid s.cache k).isSome ∨ k ∈ ks := by
  induction ks generalizing s with
  | nil => simp [loadAll]
  | cons k₂ rest ih =>
    show (lookupFid ((loadAll (load s k₂).2 rest).2).cache k).isSome ↔ _
    rw [ih, load_cached_iff]
    constructor
    · rintro ((hs | rfl) | hr)
      · exact Or.inl hs
      · exact Or.inr (List.mem_cons_self _ _)
      · exact Or.inr (List.mem_cons_of_mem _ hr)
    · rintro (hs | hm)
      · exact Or.inl (Or.inl hs)
      · rcases List.mem_cons.mp hm with rfl | hr
        · exact Or.inl (Or.inr rfl)
        · exact Or.inr hr

theorem loadAll_fid {K ε V : Type} [DecidableEq K] (ks : List K) (s : LoaderState K ε V)
    (i : Nat) (k : K) (h : ks[i]? = some k) :
    ((loadAll s ks).1)[i]? = lookupFid ((loadAll s ks).2).cache k := by
  induction ks generalizing s i with
  | nil => simp at h
  | cons k₀ rest ih =>
    cases i with
    | zero =>
      simp only [List.getElem?_cons_zero, Option.some_inj] at h
      subst h
      show ((load s k₀).1 :: (loadAll (load s k₀).2 rest).1)[0]?
        = lookupFid ((loadAll (load s k₀).2 rest).2).cache k₀
      rw [List.getElem?_cons_zero]
      exact (loadAll_lookup_mono rest _ k₀ _ (load_lookup_self s k₀)).symm
    | succ n =>
      rw [List.getElem?_cons_succ] at h
      show ((load s k₀).1 :: (loadAll (load s k₀).2 rest).1)[n + 1]? = _
      rw [List.getElem?_cons_succ]
      exact ih _ _ h

theorem loadAll_length {K ε V : Type} [DecidableEq K] (ks : List K)
    (s : LoaderState K ε V) : ((loadAll s ks).1).length = ks.length := by
  induction ks generalizing s with
  | nil => rfl
  | cons k rest ih => simp [loadAll, ih]

theorem find?_fid_map {ε V : Type} (l : List (Nat × FutureState ε V))
    (g : Nat × FutureState ε V → Nat × FutureState ε V) (hg : ∀ x, (g x).1 = x.1)
    (fid : Nat) :
    ((l.map g).find? fun en => decide (en.1 = fid))
      = (l.find? fun en => decide (en.1 = fid)).map g := by
  rw [List.find?_map g l]
  have hp : ((fun en : Nat × FutureState ε V => decide (en.1 = fid)) ∘ g)
      = fun en : Nat × FutureState ε V => decide (en.1 = fid) := by
    funext x
    show decide ((g x).1 = fid) = decide (x.1 = fid)
    rw [hg x]
  rw [hp]

/-- A failing bulk fetch rejects, with that error, the future of every key
    in the fired batch. -/
theorem dispatchErr_rejects {K ε V : Type} [DecidableEq K] (s : LoaderState K ε V)
    (e : ε) (k : K) (fid : Nat) (hmem : k ∈ s.batch)
    (hfid : lookupFid s.cache k = some fid)
    (hfut : (s.futures.find? fun en => decide (en.1 = fid)).isSome) :
    futureOf (dispatch s fun _ => .error e) fid = some (.rejected e) := by
  have hne : ¬(s.batch.isEmpty = true) := by
    cases hb : s.batch with
    | nil => rw [hb] at hmem; cases hmem
    | cons a l => simp
  have hred : dispatch s (fun _ => .error e)
      = { s with
          batch := []
          futures := s.futures.map fun en =>
            if s.batch.any (fun k₂ => decide (lookupFid s.cache k₂ = some en.1)) then
              (en.1, FutureState.rejected e)
            else en } := by
    rw [dispatch, if_neg hne]
  rw [hred, futureOf]
  obtain ⟨en, hen⟩ := Option.isSome_iff_exists.mp hfut
  have hg : ∀ x : Nat × FutureState ε V,
      (if (s.batch.any fun k₂ => decide (lookupFid s.cache k₂ = some x.1)) = true then
          (x.1, FutureState.rejected e)
        else x).1 = x.1 := by
    intro x
    by_cases hx : (s.batch.any fun k₂ => decide (lookupFid s.cache k₂ = some x.1)) = true
    · rw [if_pos hx]
    · rw [if_neg hx]
  rw [find?_fid_map _ _ hg fid, hen]
  have h1 : en.1 = fid := by
    have := List.find?_some hen
    simpa using this
  have hex : ∃ x ∈ s.batch, lookupFid s.cache x = some en.1 :=
    ⟨k, hmem, by rw [h1]; exact hfid⟩
  simp [hex]

/-- Loading a single key on a fresh loader and firing the batch resolves the
    returned future with the single value the bulk fetch produced. -/
theorem loadOne_ok {ε V : Type} (bf : List String → Except ε (List V)) (k : String)
    (v : V) (h : bf [k] = .ok [v]) : loadOne bf k = .resolved v := by
  simp [loadOne, load, initLoader, lookupFid, dispatch, h, resolveEntry, futureOf]

theorem findUnique_eq_find? {α : Type} (l : List α) (p : α → Bool)
    (h : l.Pairwise fun a b => ¬(p a = true ∧ p b = true)) :
    findUnique l p = l.find? p := by
  induction l with
  | nil => rfl
  | cons x xs ih =>
    rw [List.pairwise_cons] at h
    by_cases hx : p x
    · have hnil : xs.filter p = [] :=
        List.filter_eq_nil_iff.mpr fun a ha hpa => h.1 a ha ⟨hx, hpa⟩
      rw [findUnique, List.filter_cons, if_pos hx, hnil, List.find?_cons_of_pos _ hx]
    · have hstep : findUnique (x :: xs) p = findUnique xs p := by
        rw [findUnique, List.filter_cons, if_neg hx]
        rfl
      rw [hstep, List.find?_cons_of_neg _ hx]
      exact ih h.2

theorem map_single_objGetD {α : Type} (f : String → Option α) (k : String) :
    ([k].map fun key => (objGet (buildCache [k] f) key).getD none) = [f k] := by
  simp [buildCache, objSet, objGet]

theorem map_single_objGet {α : Type} (f : String → α) (k : String) :
    ([k].map fun key => objGet (buildCache [k] f) key) = [some (f k)] := by
  simp [buildCache, objSet, objGet]

theorem includeSubs_filter_ust (s : Store) (k : String) :
    ((includeSubs s).filter fun row =>
        row.subscribedToUser.any fun sub => sub.subscriberId == k).map UserWithSubs.user
      = old_userSubscribedToResolver s k := by
  rw [includeSubs, List.filter_map, List.map_map, old_userSubscribedToResolver]
  rw [show (UserWithSubs.user ∘ fun u : User =>
      ({ user := u
         subscribedToUser := s.subRows.filter fun r => r.authorId == u.id
         userSubscribedTo := s.subRows.filter fun r => r.subscriberId == u.id } :
        UserWithSubs)) = id from rfl]
  rw [List.map_id]
  congr 1
  funext u
  show ((s.subRows.filter fun r => r.authorId == u.id).any
      fun sub => sub.subscriberId == k) = _
  rw [List.any_filter]

theorem includeSubs_filter_stu (s : Store) (k : String) :
    ((includeSubs s).filter fun row =>
        row.userSubscribedTo.any fun sub => sub.authorId == k).map UserWithSubs.user
      = old_subscribedToUserResolver s k := by
  rw [includeSubs, List.filter_map, List.map_map, old_subscribedToUserResolver]
  rw [show (UserWithSubs.user ∘ fun u : User =>
      ({ user := u
         subscribedToUser := s.subRows.filter fun r => r.authorId == u.id
         userSubscribedTo := s.subRows.filter fun r => r.subscriberId == u.id } :
        UserWithSubs)) = id from rfl]
  rw [List.map_id]
  congr 1
  funext u
  show ((s.subRows.filter fun r => r.subscriberId == u.id).any
      fun sub => sub.authorId == k) = _
  rw [List.any_filter]

/-! Claim theorems. -/

/-- Claim C1: the claim states that the handler constructs a fresh Loader
    Registry per incoming request, so no cache state populated by one
    request can affect a load issued by another.  The source instead builds
    the six loaders once at plugin registration and passes those same
    instances as `contextValue` to every request, so the code violates the
    claim: after serving request one against `storeA`, serving request two
    against the updated `storeB` with the shared loader returns the stale
    user `userA`, whereas per-request fresh loaders would return `userB`. -/
theorem claim_C1 :
    serveTwoShared storeA storeB "u1"
        = (FutureState.resolved (some userA), FutureState.resolved (some userA))
    ∧ serveTwoFresh storeA storeB "u1"
        = (FutureState.resolved (some userA), FutureState.resolved (some userB))
    ∧ userA ≠ userB := by
  exact ⟨by decide, by decide, by decide⟩

/-- Claim C2: for one loader instance, every sequence of `load` calls issued
    before the batch fires returns the same future for equal keys, and the
    batch handed to the bulk-fetch function lists each distinct loaded key
    exactly once (no duplicates, and exactly the loaded keys). -/
theorem claim_C2 {K ε V : Type} [DecidableEq K] (ks : List K) :
    (∀ (i j : Nat) (k : K), ks[i]? = some k → ks[j]? = some k →
        ((loadAll (initLoader : LoaderState K ε V) ks).1)[i]?
          = ((loadAll (initLoader : LoaderState K ε V) ks).1)[j]?)
    ∧ ((loadAll (initLoader : LoaderState K ε V) ks).2).batch.Nodup
    ∧ (∀ k, k ∈ ((loadAll (initLoader : LoaderState K ε V) ks).2).batch ↔ k ∈ ks) := by
  have hinv := loaderInv_loadAll ks (initLoader : LoaderState K ε V) loaderInv_init
  refine ⟨?_, hinv.nodupBatch, ?_⟩
  · intro i j k hi hj
    rw [loadAll_fid ks _ i k hi, loadAll_fid ks _ j k hj]
  · intro k
    rw [hinv.batchIff k, loadAll_cached_iff]
    simp [initLoader, lookupFid]

/-- Witness for C2 at the key sequence `["a", "b", "a"]`. -/
theorem claim_C2_witness :
    ((loadAll (initLoader : LoaderState String Unit Nat) ["a", "b", "a"]).1)[0]?
        = ((loadAll (initLoader : LoaderState String Unit Nat) ["a", "b", "a"]).1)[2]?
    ∧ ((loadAll (initLoader : LoaderState String Unit Nat) ["a", "b", "a"]).2).batch.Nodup
    ∧ ("b" ∈ ((loadAll (initLoader : LoaderState String Unit Nat) ["a", "b", "a"]).2).batch
        ↔ "b" ∈ ["a", "b", "a"]) :=
  ⟨(claim_C2 (K := String) (ε := Unit) (V := Nat) ["a", "b", "a"]).1 0 2 "a"
      (by decide) (by decide),
   (claim_C2 (K := String) (ε := Unit) (V := Nat) ["a", "b", "a"]).2.1,
   (claim_C2 (K := String) (ε := Unit) (V := Nat) ["a", "b", "a"]).2.2 "b"⟩

/-- Claim C3: the i-th element of a bulk-fetch result is the value belonging
    to the i-th requested key (results are re-mapped to key order), shown
    for `userLoader` and `userSubscribedToLoader`. -/
theorem claim_C3 (s : Store) (keys : List String) (i : Nat) (k : String)
    (h : keys[i]? = some k) :
    ((userLoaderBatch keys).run s)[i]? = some (s.users.find? fun u => u.id == k)
    ∧ ((userSubscribedToBatch keys).run s)[i]?
        = some (some ((includeSubs s).filter fun row =>
            row.subscribedToUser.any fun sub => sub.subscriberId == k)) :=
  ⟨userLoaderBatch_run s keys i k h, userSubscribedToBatch_run s keys i k h⟩

/-- Witness for C3 at the second requested key. -/
theorem claim_C3_witness :
    ((userLoaderBatch ["w1", "zz"]).run wStore)[1]?
        = some (wStore.users.find? fun u => u.id == "zz")
    ∧ ((userSubscribedToBatch ["w1", "zz"]).run wStore)[1]?
        = some (some ((includeSubs wStore).filter fun row =>
            row.subscribedToUser.any fun sub => sub.subscriberId == "zz")) :=
  claim_C3 wStore ["w1", "zz"] 1 "zz" (by decide)

/-- Claim C4: every bulk-fetch function issues exactly one data-store query
    (`findMany`) per batch, whatever the keys. -/
theorem claim_C4 (s : Store) (keys : List String) :
    (userLoaderBatch keys).queryCount s = 1
    ∧ (postLoaderBatch keys).queryCount s = 1
    ∧ (profileLoaderBatch keys).queryCount s = 1
    ∧ (memberTypeLoaderBatch keys).queryCount s = 1
    ∧ (userSubscribedToBatch keys).queryCount s = 1
    ∧ (subscribedToUserBatch keys).queryCount s = 1 :=
  ⟨rfl, rfl, rfl, rfl, rfl, rfl⟩

/-- Claim C5: a by-primary-key loader (`userLoader`, `profileLoader`,
    `memberTypeLoader`) asked for a key the store does not hold resolves
    its future to the absent value (`none`), not a rejection. -/
theorem claim_C5 (s : Store) (k : String)
    (hu : ∀ u ∈ s.users, u.id ≠ k)
    (hp : ∀ p ∈ s.profiles, p.userId ≠ k)
    (hm : ∀ m ∈ s.memberTypes, m.id ≠ k) :
    loadOne (fun ks => .ok ((userLoaderBatch ks).run s)) k
        = (FutureState.resolved none : FutureState Unit (Option User))
    ∧ loadOne (fun ks => .ok ((profileLoaderBatch ks).run s)) k
        = (FutureState.resolved none : FutureState Unit (Option Profile))
    ∧ loadOne (fun ks => .ok ((memberTypeLoaderBatch ks).run s)) k
        = (FutureState.resolved none : FutureState Unit (Option MemberType)) := by
  refine ⟨loadOne_ok _ _ _ ?_, loadOne_ok _ _ _ ?_, loadOne_ok _ _ _ ?_⟩
  · have hfind : (s.users.find? fun u => u.id == k) = none :=
      List.find?_eq_none.2 fun u hmem => by simpa using hu u hmem
    have h1 : (userLoaderBatch [k]).run s = [s.users.find? fun u => u.id == k] :=
      map_single_objGetD _ k
    rw [h1, hfind]
  · have hfind : (s.profiles.find? fun p => p.userId == k) = none :=
      List.find?_eq_none.2 fun p hmem => by simpa using hp p hmem
    have h1 : (profileLoaderBatch [k]).run s = [s.profiles.find? fun p => p.userId == k] :=
      map_single_objGetD _ k
    rw [h1, hfind]
  · have hfind : (s.memberTypes.find? fun m => m.id == k) = none :=
      List.find?_eq_none.2 fun m hmem => by simpa using hm m hmem
    have h1 : (memberTypeLoaderBatch [k]).run s = [s.memberTypes.find? fun m => m.id == k] :=
      map_single_objGetD _ k
    rw [h1, hfind]

/-- Witness for C5 at a key held by no entity of the witness store. -/
theorem claim_C5_witness :
    loadOne (fun ks => .ok ((userLoaderBatch ks).run wStore)) "zz"
        = (FutureState.resolved none : FutureState Unit (Option User))
    ∧ loadOne (fun ks => .ok ((profileLoaderBatch ks).run wStore)) "zz"
        = (FutureState.resolved none : FutureState Unit (Option Profile))
    ∧ loadOne (fun ks => .ok ((memberTypeLoaderBatch ks).run wStore)) "zz"
        = (FutureState.resolved none : FutureState Unit (Option MemberType)) :=
  claim_C5 wStore "zz" (by decide) (by decide) (by decide)

/-- Claim C6: the by-foreign-key-group loader `postLoader` answers every
    requested key with a present array (never the absent value), and a key
    with no matching posts resolves to the empty array. -/
theorem claim_C6 (s : Store) (keys : List String) (i : Nat) (k : String)
    (h : keys[i]? = some k) (hn : ∀ p ∈ s.posts, p.authorId ≠ k) :
    ((postLoaderBatch keys).run s)[i]?
        = some (some (s.posts.filter fun p => p.authorId == k))
    ∧ loadOne (fun ks => .ok ((postLoaderBatch ks).run s)) k
        = (FutureState.resolved (some []) : FutureState Unit (Option (List Post))) := by
  refine ⟨postLoaderBatch_run s keys i k h, loadOne_ok _ _ _ ?_⟩
  have h1 : (postLoaderBatch [k]).run s
      = [some (s.posts.filter fun p => p.authorId == k)] :=
    map_single_objGet _ k
  have hfil : (s.posts.filter fun p => p.authorId == k) = [] :=
    List.filter_eq_nil_iff.mpr fun p hmem => by simpa using hn p hmem
  rw [h1, hfil]

/-- Witness for C6 at an author key with no posts. -/
theorem claim_C6_witness :
    ((postLoaderBatch ["zz"]).run wStore)[0]?
        = some (some (wStore.posts.filter fun p => p.authorId == "zz"))
    ∧ loadOne (fun ks => .ok ((postLoaderBatch ks).run wStore)) "zz"
        = (FutureState.resolved (some []) : FutureState Unit (Option (List Post))) :=
  claim_C6 wStore ["zz"] 0 "zz" (by decide) (by decide)

/-- Claim C7: when the bulk fetch fails, every future handed out for the
    batch is rejected with that same error (none resolves, none stays
    pending). -/
theorem claim_C7 {K ε V : Type} [DecidableEq K] (ks : List K) (e : ε) (i : Nat)
    (fid : Nat)
    (h : ((loadAll (initLoader : LoaderState K ε V) ks).1)[i]? = some fid) :
    futureOf (dispatch (loadAll (initLoader : LoaderState K ε V) ks).2
        fun _ => .error e) fid
      = some (.rejected e) := by
  have hlen : i < ks.length := by
    rw [List.getElem?_eq_some] at h
    have := h.1
    rwa [loadAll_length] at this
  obtain ⟨k, hk⟩ : ∃ k, ks[i]? = some k := by
    refine ⟨ks.get ⟨i, hlen⟩, ?_⟩
    exact (List.getElem?_eq_some_getElem_iff ks i hlen).mpr trivial
  have hfid : lookupFid ((loadAll (initLoader : LoaderState K ε V) ks).2).cache k
      = some fid := (loadAll_fid ks _ i k hk).symm.trans h
  have hinv := loaderInv_loadAll ks (initLoader : LoaderState K ε V) loaderInv_init
  exact dispatchErr_rejects _ e k fid
    ((hinv.batchIff k).mpr (by simp [hfid])) hfid (hinv.fidFuture k fid hfid)

/-- Witness for C7 at one loaded key. -/
theorem claim_C7_witness :
    futureOf (dispatch (loadAll (initLoader : LoaderState String Unit Nat) ["a"]).2
        fun _ => .error ()) 0
      = some (.rejected ()) :=
  claim_C7 ["a"] () 0 0 (by decide)

/-- Claim C8: for every store and requested key, the loader-based
    relationship resolvers of `index.ts` (profile, posts, userSubscribedTo,
    subscribedToUser) produce the same values as the direct per-key queries
    of the earlier revision, given the schema's uniqueness of
    `Profile.userId`. -/
theorem claim_C8 (s : Store) (keys : List String) (i : Nat) (k : String)
    (h : keys[i]? = some k)
    (huniq : s.profiles.Pairwise fun a b => a.userId ≠ b.userId) :
    ((profileLoaderBatch keys).run s)[i]? = some (old_profileResolver s k)
    ∧ ((postLoaderBatch keys).run s)[i]? = some (some (old_postsResolver s k))
    ∧ (((userSubscribedToBatch keys).run s)[i]?).map
          (Option.map (List.map UserWithSubs.user))
        = some (some (old_userSubscribedToResolver s k))
    ∧ (((subscribedToUserBatch keys).run s)[i]?).map
          (Option.map (List.map UserWithSubs.user))
        = some (some (old_subscribedToUserResolver s k)) := by
  refine ⟨?_, ?_, ?_, ?_⟩
  · rw [profileLoaderBatch_run s keys i k h, old_profileResolver,
      findUnique_eq_find? _ _ (huniq.imp ?_)]
    intro a b hab hpq
    apply hab
    have h₁ : a.userId = k := by simpa using hpq.1
    have h₂ : b.userId = k := by simpa using hpq.2
    rw [h₁, h₂]
  · exact postLoaderBatch_run s keys i k h
  · rw [userSubscribedToBatch_run s keys i k h]
    simp only [Option.map_some']
    rw [includeSubs_filter_ust s k]
  · rw [subscribedToUserBatch_run s keys i k h]
    simp only [Option.map_some']
    rw [includeSubs_filter_stu s k]

/-- Witness for C8 on the witness store holding one user subscribed to
    itself. -/
theorem claim_C8_witness :
    ((profileLoaderBatch ["w1"]).run wStore)[0]? = some (old_profileResolver wStore "w1")
    ∧ ((postLoaderBatch ["w1"]).run wStore)[0]?
        = some (some (old_postsResolver wStore "w1"))
    ∧ (((userSubscribedToBatch ["w1"]).run wStore)[0]?).map
          (Option.map (List.map UserWithSubs.user))
        = some (some (old_userSubscribedToResolver wStore "w1"))
    ∧ (((subscribedToUserBatch ["w1"]).run wStore)[0]?).map
          (Option.map (List.map UserWithSubs.user))
        = some (some (old_subscribedToUserResolver wStore "w1")) :=
  claim_C8 wStore ["w1"] 0 "w1" (by decide) (by decide)

/-- Claim C9: the `CreateUserInput` and `ChangeUserInput` scalar functions
    return the dto unchanged exactly when the name is a string or the
    balance is a number, and return null exactly when both checks fail. -/
theorem claim_C9 (v : UserDto) :
    (createUserInput_serialize v = some v
        ↔ (isStringJS v.name || isNumberJS v.balance) = true)
    ∧ (createUserInput_serialize v = none
        ↔ (isStringJS v.name || isNumberJS v.balance) = false)
    ∧ (createUserInput_parseValue v = some v
        ↔ (isStringJS v.name || isNumberJS v.balance) = true)
    ∧ (createUserInput_parseValue v = none
        ↔ (isStringJS v.name || isNumberJS v.balance) = false)
    ∧ (changeUserInput_serialize v = some v
        ↔ (isStringJS v.name || isNumberJS v.balance) = true)
    ∧ (changeUserInput_serialize v = none
        ↔ (isStringJS v.name || isNumberJS v.balance) = false)
    ∧ (changeUserInput_parseValue v = some v
        ↔ (isStringJS v.name || isNumberJS v.balance) = true)
    ∧ (changeUserInput_parseValue v = none
        ↔ (isStringJS v.name || isNumberJS v.balance) = false) := by
  cases hn : isStringJS v.name <;> cases hb : isNumberJS v.balance <;>
    simp [createUserInput_serialize, createUserInput_parseValue,
      changeUserInput_serialize, changeUserInput_parseValue, hn, hb]

/-- Counterexample to C10 as stated: `ChangeProfileInput.parseValue` throws
    on a dto whose `userId` is not truthy (it is `undefined`), because its
    `yearOfBirth` is the truthy non-integer 3/2. -/
theorem claim_C10_cex :
    throwsError (changeProfileInput_parseValue
      { userId := JSVal.vundef, memberTypeId := JSVal.vundef,
        isMale := JSVal.vundef, yearOfBirth := JSVal.vnum (mkRat 3 2) }) = true
    ∧ truthy JSVal.vundef = false := by
  decide

/-- Claim C10 as amended: the `ChangePostInput` functions throw exactly when
    `authorId` is truthy; the `ChangeProfileInput` functions throw exactly
    when `userId` is truthy or `yearOfBirth` is truthy and not an integer. -/
theorem claim_C10_amended (v : PostDto) (w : ProfileDto) :
    (throwsError (changePostInput_serialize v) = truthy v.authorId)
    ∧ (throwsError (changePostInput_parseValue v) = truthy v.authorId)
    ∧ (throwsError (changeProfileInput_serialize w)
        = (truthy w.userId || truthy w.yearOfBirth && !isIntegerJS w.yearOfBirth))
    ∧ (throwsError (changeProfileInput_parseValue w)
        = (truthy w.userId || truthy w.yearOfBirth && !isIntegerJS w.yearOfBirth)) := by
  refine ⟨?_, ?_, ?_, ?_⟩
  · cases ha : truthy v.authorId <;>
      simp [changePostInput_serialize, ha, throwsError]
  · cases ha : truthy v.authorId <;>
      simp [changePostInput_parseValue, ha, throwsError]
  · cases hu : truthy w.userId <;>
      cases hy : truthy w.yearOfBirth && !isIntegerJS w.yearOfBirth <;>
        simp [changeProfileInput_serialize, hu, hy, throwsError]
  · cases hu : truthy w.userId <;>
      cases hy : truthy w.yearOfBirth && !isIntegerJS w.yearOfBirth <;>
        simp [changeProfileInput_parseValue, hu, hy, throwsError]

end GraphQLRepo
